import Mathlib

/-!
Shallow embedding of the balance-subscription core of the repository
(src/balance/src/subscribe.rs) together with the byte-level token-account
parser it calls (spl_token / spl_token_2022 `state::Account::unpack_from_slice`,
via `solana_sdk::program_pack::Pack`).

Conventions of the embedding:
* byte buffers are `List Nat` (each entry one byte value);
* a Rust panic (`unwrap` / `expect` / out-of-bounds slice index) is an explicit
  `panicked` outcome;
* `anyhow::bail!` is an explicit `failed` outcome;
* the inbound decode loop is a fold over the list of messages delivered by the
  stream, parameterised by which output-queue pushes succeed.
-/

set_option maxRecDepth 4096

namespace Solana

/-- Byte buffers: one `Nat` per byte. -/
abbrev Bytes := List Nat

/-- The key `solana_sdk::system_program::id()`: the all-zero 32-byte key
(base58 `11111111111111111111111111111111`). -/
def systemProgramId : Bytes := List.replicate 32 0

/-- The key `spl_token::id()`: raw bytes of `TokenkegQfeZyiNwAJbNbGKPFXCWuBvf9Ss623VQ5DA`. -/
def splTokenId : Bytes :=
  [6, 221, 246, 225, 215, 101, 161, 147, 217, 203, 225, 70, 206, 235, 121, 172,
   28, 180, 133, 237, 95, 91, 55, 145, 58, 140, 245, 133, 126, 255, 0, 169]

/-- The key `spl_token_2022::id()`: raw bytes of `TokenzQdBNbLqP5VEhdkAS6EPFLC1PHnBqCXEpPxuEb`. -/
def splToken2022Id : Bytes :=
  [6, 221, 246, 225, 238, 117, 143, 222, 24, 66, 93, 188, 228, 108, 205, 218,
   182, 26, 252, 77, 131, 185, 13, 39, 254, 189, 249, 40, 216, 161, 139, 252]

/-- The conversion `Pubkey::try_from(Vec<u8>)`: succeeds exactly on 32-byte buffers. -/
def pubkeyTryFrom (b : Bytes) : Option Bytes :=
  if b.length = 32 then some b else none

/-- The conversion `u64::from_le_bytes`: little-endian, first byte least significant. -/
def u64le (b : Bytes) : Nat :=
  b.foldr (fun byte acc => byte + 256 * acc) 0

/-- The helper `spl_token::state::unpack_coption_key` on a 36-byte slice: a 4-byte tag
(`[0,0,0,0]` for `COption::None`, `[1,0,0,0]` for `COption::Some`)
followed by the 32-byte key; any other tag is `InvalidAccountData`. -/
def unpackCOptionKey (b : Bytes) : Option (Option Bytes) :=
  match b.take 4 with
  | [0, 0, 0, 0] => some none
  | [1, 0, 0, 0] => some (some (b.drop 4))
  | _ => none

/-- The helper `spl_token::state::unpack_coption_u64` on a 12-byte slice: 4-byte tag then
a little-endian u64. -/
def unpackCOptionU64 (b : Bytes) : Option (Option Nat) :=
  match b.take 4 with
  | [0, 0, 0, 0] => some none
  | [1, 0, 0, 0] => some (some (u64le (b.drop 4)))
  | _ => none

/-- The conversion `AccountState::try_from_primitive`: 0 (Uninitialized), 1 (Initialized),
2 (Frozen) are the only valid discriminants. -/
def accountStateTryFrom (b : Nat) : Option Nat :=
  if b ≤ 2 then some b else none

/-- The fixed 165-byte token-account record of `spl_token::state::Account`
(byte-identical in `spl_token_2022::state::Account`). -/
structure SplTokenAccount where
  mint : Bytes
  owner : Bytes
  amount : Nat
  delegate : Option Bytes
  state : Nat
  isNativeOpt : Option Nat
  delegatedAmount : Nat
  closeAuthority : Option Bytes
deriving DecidableEq

/-- Outcome of the raw unpack: `panicked` models the `array_ref![src, 0, 165]`
slice-index panic on a buffer shorter than 165 bytes, `invalid` models
`Err(ProgramError::InvalidAccountData)`. -/
inductive Unpacked (α : Type) where
  | panicked : Unpacked α
  | invalid : Unpacked α
  | ok : α → Unpacked α
deriving DecidableEq

/-- The parser `<spl_token::state::Account as Pack>::unpack_from_slice`: takes the first
165 bytes (panicking if fewer are present) and splits them as
`[mint 32 | owner 32 | amount 8 | delegate 36 | state 1 | is_native 12 |
delegated_amount 8 | close_authority 36]`, validating the three COption tags
and the state discriminant. -/
def unpack_from_slice (src : Bytes) : Unpacked SplTokenAccount :=
  if src.length < 165 then .panicked
  else
    let mintB := src.take 32
    let ownerB := (src.drop 32).take 32
    let amountB := (src.drop 64).take 8
    let delegateB := (src.drop 72).take 36
    let stateB := (src.drop 108).take 1
    let isNativeB := (src.drop 109).take 12
    let delegatedB := (src.drop 121).take 8
    let closeB := (src.drop 129).take 36
    match unpackCOptionKey delegateB, accountStateTryFrom (stateB.headD 0),
          unpackCOptionU64 isNativeB, unpackCOptionKey closeB with
    | some d, some st, some n, some c =>
        .ok { mint := mintB, owner := ownerB, amount := u64le amountB,
              delegate := d, state := st, isNativeOpt := n,
              delegatedAmount := u64le delegatedB, closeAuthority := c }
    | _, _, _, _ => .invalid

/-- The parser `<spl_token_2022::state::Account as Pack>::unpack_from_slice`: the
token-2022 base account record has the same 165-byte fixed prefix and the same parser;
trailing extension bytes are never read (`array_ref![src, 0, 165]` ignores
them), so the function coincides with the spl-token one. -/
def unpack_from_slice_2022 (src : Bytes) : Unpacked SplTokenAccount :=
  unpack_from_slice src

/-- The fields of `SubscribeUpdateAccountInfo` that the decoder reads:
`pubkey`, `owner` (raw protobuf byte strings), `lamports`, `data`. -/
structure AccountInfo where
  pubkey : Bytes
  owner : Bytes
  lamports : Nat
  data : Bytes
deriving DecidableEq

/-- The `subscribe_update::UpdateOneof` variants the decoder distinguishes:
`other` stands for every remaining protobuf variant (slot, transaction, block,
…), all handled by the catch-all `msg =>` arm. -/
inductive UpdateOneof where
  | ping : UpdateOneof
  | pong : Int → UpdateOneof
  | account : Option AccountInfo → Nat → UpdateOneof
  | other : UpdateOneof
deriving DecidableEq

/-- A deserialized `SubscribeUpdate`: protobuf makes the oneof optional. -/
structure InboundMessage where
  update_oneof : Option UpdateOneof
deriving DecidableEq

/-- The `BalanceUpdate` output record of subscribe.rs. -/
structure BalanceUpdate where
  is_native : Bool
  pubkey : Bytes
  mint : Option Bytes
  amount : Nat
deriving DecidableEq

/-- Result of processing one inbound message: continue (with at most one
`BalanceUpdate` to push), panic (a Rust `unwrap`/`expect`/index panic tears the
task down), or fail (`anyhow::bail!`). -/
inductive StepResult where
  | cont : Option BalanceUpdate → StepResult
  | panicked : String → StepResult
  | failed : String → StepResult
deriving DecidableEq

/-- One iteration of the decode loop of `subscribe_balance_udpates`
(subscribe.rs lines 106-160), for one successfully read stream message. -/
def decodeStep (msg : InboundMessage) : StepResult :=
  match msg.update_oneof with
  | none => .panicked "valid message"
  | some .ping => .cont none
  | some (.pong _) => .cont none
  | some (.account accOpt _slot) =>
    match accOpt with
    | none => .cont none
    | some acc =>
      match pubkeyTryFrom acc.owner with
      | none => .panicked "owner pubkey"
      | some ownerPk =>
        if ownerPk = systemProgramId then
          match pubkeyTryFrom acc.pubkey with
          | none => .panicked "account pubkey"
          | some pk =>
            .cont (some { is_native := true, pubkey := pk, mint := none,
                          amount := acc.lamports })
        else if ownerPk = splTokenId then
          match unpack_from_slice acc.data with
          | .panicked => .panicked "index out of range"
          | .invalid => .panicked "unwrap on Err"
          | .ok st =>
            match pubkeyTryFrom acc.pubkey with
            | none => .panicked "account pubkey"
            | some pk =>
              .cont (some { is_native := false, pubkey := pk,
                            mint := some st.mint, amount := st.amount })
        else if ownerPk = splToken2022Id then
          match unpack_from_slice_2022 acc.data with
          | .panicked => .panicked "index out of range"
          | .invalid => .panicked "unwrap on Err"
          | .ok st =>
            match pubkeyTryFrom acc.pubkey with
            | none => .panicked "account pubkey"
            | some pk =>
              .cont (some { is_native := false, pubkey := pk,
                            mint := some st.mint, amount := st.amount })
        else .cont none
  | some .other => .failed "received unexpected message"

/-- How a full run of the decode task ends: the stream was drained (`ended`),
the task returned `Err` via `bail!` (`failed`), or it panicked; each carries
the `BalanceUpdate`s pushed successfully onto the output queue, in order. -/
inductive RunResult where
  | ended : List BalanceUpdate → RunResult
  | failed : List BalanceUpdate → String → RunResult
  | panicked : List BalanceUpdate → String → RunResult
deriving DecidableEq

/-- Prepend one delivered output to a run result. -/
def RunResult.consOutput (u : BalanceUpdate) : RunResult → RunResult
  | .ended outs => .ended (u :: outs)
  | .failed outs s => .failed (u :: outs) s
  | .panicked outs s => .panicked (u :: outs) s

/-- The delivered outputs of a run result. -/
def RunResult.outputs : RunResult → List BalanceUpdate
  | .ended outs => outs
  | .failed outs _ => outs
  | .panicked outs _ => outs

/-- Whether the run ended in a panic. -/
def RunResult.isPanicked : RunResult → Bool
  | .panicked _ _ => true
  | _ => false

/-- Termination status of a run, with outputs erased. -/
inductive RunStatus where
  | ended : RunStatus
  | failed : String → RunStatus
  | panicked : String → RunStatus
deriving DecidableEq

/-- Status of a run result. -/
def RunResult.status : RunResult → RunStatus
  | .ended _ => .ended
  | .failed _ s => .failed s
  | .panicked _ s => .panicked s

/-- The decode loop over a list of inbound messages. `sendOk k` tells whether
the k-th `tx.send(balance_update)` succeeds; on failure the error is only
logged (subscribe.rs lines 152-156) and the loop continues. -/
def decodeRunAux (sendOk : Nat → Bool) : List InboundMessage → Nat → RunResult
  | [], _ => .ended []
  | m :: rest, k =>
    match decodeStep m with
    | .cont none => decodeRunAux sendOk rest k
    | .cont (some u) =>
      if sendOk k then (decodeRunAux sendOk rest (k + 1)).consOutput u
      else decodeRunAux sendOk rest (k + 1)
    | .panicked s => .panicked [] s
    | .failed s => .failed [] s

/-- The decode task of `subscribe_balance_udpates`, run on the full list of
messages the stream delivers. -/
def decodeRun (sendOk : Nat → Bool) (msgs : List InboundMessage) : RunResult :=
  decodeRunAux sendOk msgs 0

/-! The outbound side: the subscription filter sent once at start
(subscribe.rs lines 57-82) and the spawned ping loop (lines 86-102). -/

/-- Everything `subscribe_balance_udpates` sends on `subscribe_tx`: the initial
filter request (watched account strings plus commitment level) or a ping. -/
inductive OutboundMsg where
  | filter : List String → Option Int → OutboundMsg
  | ping : Int → OutboundMsg
deriving DecidableEq

/-- Whether an outbound message is a ping. -/
def OutboundMsg.isPing : OutboundMsg → Bool
  | .ping _ => true
  | _ => false

/-- Whether an outbound message is a filter request. -/
def OutboundMsg.isFilter : OutboundMsg → Bool
  | .filter _ _ => true
  | _ => false

/-- The value of `CommitmentLevel::Processed as i32`. -/
def commitmentProcessed : Int := 0

/-- The single `SubscribeRequest` built at lines 57-82: the accounts filter
holds `accounts.map(|a| a.to_string())` and commitment `Processed`. -/
def filterRequest (toStr : Bytes → String) (accounts : List Bytes) : OutboundMsg :=
  .filter (accounts.map toStr) (some commitmentProcessed)

/-- Wrap of an `i32` value into the signed 32-bit range (release-mode Rust
addition semantics). -/
def wrapI32 (x : Int) : Int := (x + 2 ^ 31) % 2 ^ 32 - 2 ^ 31

/-- The ping task of lines 86-102 observed for `n` timer ticks, starting from
counter value `id` (`let mut id = 0` in the source): each tick first
increments `id`, then sends `SubscribeRequestPing { id }`. -/
def pingLoop : Nat → Int → List OutboundMsg
  | 0, _ => []
  | n + 1, id =>
    let id2 := wrapI32 (id + 1)
    .ping id2 :: pingLoop n id2

/-- The full outbound trace of one subscription observed for `n` ticks: the
filter request is sent (and awaited) before the ping task is spawned. -/
def outboundTrace (toStr : Bytes → String) (accounts : List Bytes) (n : Nat) :
    List OutboundMsg :=
  filterRequest toStr accounts :: pingLoop n 0

/-- Whether an unpack outcome is a successful parse. -/
def Unpacked.isOk {α : Type} : Unpacked α → Bool
  | .ok _ => true
  | _ => false

/-! Concrete data used by witnesses: a valid 165-byte token-account record
with mint bytes `5⋯5`, holder bytes `6⋯6`, amount 42, no delegate,
state Initialized, no is-native flag, no close authority. -/

/-- A valid fixed-layout token-account byte buffer. -/
def tokenDataW : Bytes :=
  List.replicate 32 5 ++ List.replicate 32 6 ++ ([42] ++ List.replicate 7 0) ++
  List.replicate 36 0 ++ [1] ++ List.replicate 12 0 ++ List.replicate 8 0 ++
  List.replicate 36 0

/-- The record `tokenDataW` parses to. -/
def tokenAccW : SplTokenAccount :=
  { mint := List.replicate 32 5, owner := List.replicate 32 6, amount := 42,
    delegate := none, state := 1, isNativeOpt := none, delegatedAmount := 0,
    closeAuthority := none }

/-- An account update owned by the spl-token program whose data buffer is
empty, hence not a valid fixed-layout record. -/
def badTokenMsg : InboundMessage :=
  ⟨some (.account (some ⟨List.replicate 32 7, splTokenId, 0, []⟩) 9)⟩

/-- A bare inbound ping message. -/
def pingMsg : InboundMessage := ⟨some .ping⟩

/-- A bare inbound pong message. -/
def pongMsg : InboundMessage := ⟨some (.pong 1)⟩

/-! Helper lemmas shared by several claims. -/

lemma systemProgramId_length : systemProgramId.length = 32 := by
  simp [systemProgramId]

lemma splTokenId_length : splTokenId.length = 32 := by decide

lemma splToken2022Id_length : splToken2022Id.length = 32 := by decide

lemma splTokenId_ne_system : splTokenId ≠ systemProgramId := by decide

lemma splToken2022Id_ne_system : splToken2022Id ≠ systemProgramId := by decide

lemma splToken2022Id_ne_splTokenId : splToken2022Id ≠ splTokenId := by decide

lemma pubkeyTryFrom_of_length {b : Bytes} (h : b.length = 32) :
    pubkeyTryFrom b = some b := by
  simp [pubkeyTryFrom, h]

/-! Claim theorems. -/

/-- C9: an inbound message that deserialized successfully but carries no
payload variant (`update_oneof` is `None`) makes the decoder panic through
`expect("valid message")`, rather than failing with an error value or
continuing: the step function is not total over syntactically valid messages,
the missing totality surfacing as the explicit panic outcome. -/
theorem C9_none_payload_panics :
    decodeStep ⟨none⟩ = .panicked "valid message" := rfl

/-- C10: an `AccountUpdate` whose inner account record is absent produces no
`BalanceUpdate`, raises no error, and the decoder silently continues with the
rest of the stream. -/
theorem C10_absent_account_skipped (slot : Nat) (sendOk : Nat → Bool)
    (rest : List InboundMessage) :
    decodeStep ⟨some (.account none slot)⟩ = .cont none ∧
    decodeRun sendOk (⟨some (.account none slot)⟩ :: rest) = decodeRun sendOk rest := by
  constructor
  · rfl
  · simp [decodeRun, decodeRunAux, decodeStep]

/-- C2: an `AccountUpdate` owned by the native system program yields exactly
one `BalanceUpdate` with `is_native = true`, `mint = none` and `amount` equal
to the lamports field of the message. (The pubkey field of the account must be a
well-formed 32-byte key, as `Pubkey::try_from(..).unwrap()` requires.) -/
theorem C2_system_owner_native (acc : AccountInfo) (slot : Nat)
    (hpk : acc.pubkey.length = 32) (hown : acc.owner = systemProgramId) :
    decodeStep ⟨some (.account (some acc) slot)⟩ =
      .cont (some { is_native := true, pubkey := acc.pubkey, mint := none,
                    amount := acc.lamports }) := by
  simp [decodeStep, hown, pubkeyTryFrom_of_length systemProgramId_length,
        pubkeyTryFrom_of_length hpk]

/-- Witness for C2 at a concrete message. -/
theorem C2_system_owner_native_witness :
    decodeStep ⟨some (.account (some ⟨List.replicate 32 7, systemProgramId,
        5000000000, []⟩) 1)⟩ =
      .cont (some { is_native := true, pubkey := List.replicate 32 7,
                    mint := none, amount := 5000000000 }) :=
  C2_system_owner_native ⟨List.replicate 32 7, systemProgramId, 5000000000, []⟩ 1
    (by decide) rfl

/-- C7: an `AccountUpdate` whose owner is a well-formed key but none of the
three known programs produces no `BalanceUpdate` and no error (the event is
only logged at warning level), and the decoder continues with the rest of the
stream. -/
theorem C7_unknown_owner_ignored (acc : AccountInfo) (slot : Nat)
    (sendOk : Nat → Bool) (rest : List InboundMessage)
    (hlen : acc.owner.length = 32)
    (h1 : acc.owner ≠ systemProgramId)
    (h2 : acc.owner ≠ splTokenId)
    (h3 : acc.owner ≠ splToken2022Id) :
    decodeStep ⟨some (.account (some acc) slot)⟩ = .cont none ∧
    decodeRun sendOk (⟨some (.account (some acc) slot)⟩ :: rest) =
      decodeRun sendOk rest := by
  have hstep : decodeStep ⟨some (.account (some acc) slot)⟩ = .cont none := by
    simp [decodeStep, pubkeyTryFrom_of_length hlen, h1, h2, h3]
  refine ⟨hstep, ?_⟩
  simp [decodeRun, decodeRunAux, hstep]

/-- Witness for C7 at a concrete message owned by an unknown program. -/
theorem C7_unknown_owner_ignored_witness :
    decodeStep ⟨some (.account (some ⟨List.replicate 32 7, List.replicate 32 9,
        0, []⟩) 4)⟩ = .cont none ∧
    decodeRun (fun _ => true) [⟨some (.account (some ⟨List.replicate 32 7,
        List.replicate 32 9, 0, []⟩) 4)⟩] = decodeRun (fun _ => true) [] :=
  C7_unknown_owner_ignored ⟨List.replicate 32 7, List.replicate 32 9, 0, []⟩ 4
    (fun _ => true) [] (by decide) (by decide) (by decide) (by decide)

/-- C3: an `AccountUpdate` owned by either token program whose data buffer is
a valid fixed-layout token-account record yields exactly one `BalanceUpdate`
with `is_native = false`, `mint` equal to the mint field of the record and
`amount` equal to the amount field of the record. (The pubkey field of the
account must be a
well-formed 32-byte key, as `Pubkey::try_from(..).unwrap()` requires; the
token-2022 parser reads the same 165-byte fixed prefix, so one parse
hypothesis covers both owners.) -/
theorem C3_token_owner_decoded (acc : AccountInfo) (slot : Nat)
    (st : SplTokenAccount) (hpk : acc.pubkey.length = 32)
    (hown : acc.owner = splTokenId ∨ acc.owner = splToken2022Id)
    (hok : unpack_from_slice acc.data = .ok st) :
    decodeStep ⟨some (.account (some acc) slot)⟩ =
      .cont (some { is_native := false, pubkey := acc.pubkey,
                    mint := some st.mint, amount := st.amount }) := by
  rcases hown with h | h
  · simp [decodeStep, h, pubkeyTryFrom_of_length splTokenId_length,
          pubkeyTryFrom_of_length hpk, splTokenId_ne_system, hok]
  · simp [decodeStep, h, pubkeyTryFrom_of_length splToken2022Id_length,
          pubkeyTryFrom_of_length hpk, splToken2022Id_ne_system,
          splToken2022Id_ne_splTokenId, unpack_from_slice_2022, hok]

/-- Witness for C3 at a concrete message with a valid 165-byte record. -/
theorem C3_token_owner_decoded_witness :
    decodeStep ⟨some (.account (some ⟨List.replicate 32 7, splTokenId, 0,
        tokenDataW⟩) 2)⟩ =
      .cont (some { is_native := false, pubkey := List.replicate 32 7,
                    mint := some (List.replicate 32 5), amount := 42 }) :=
  C3_token_owner_decoded ⟨List.replicate 32 7, splTokenId, 0, tokenDataW⟩ 2
    tokenAccW (by decide) (Or.inl rfl) (by decide)

/-- C1 counterexample: the claim states that a token-program-owned update with
a malformed (here zero-length) data buffer is dropped with no `BalanceUpdate`
and that the decoder remains open and processes subsequent messages — at this
input that means `decodeRun` ends normally with no output after also
consuming the following ping; instead the decode task panics on the unchecked
unpack and the following message is never processed. -/
theorem C1_counterexample :
    decodeRun (fun _ => true) [badTokenMsg, pingMsg] ≠ .ended [] ∧
    decodeRun (fun _ => true) [badTokenMsg, pingMsg] =
      .panicked [] "index out of range" := by decide

/-- C1 amended: a token-program-owned update whose data buffer is not a valid
fixed-layout record yields no `BalanceUpdate`, but instead of being dropped
with the stream continuing, the decode task panics (the parse result is
`unwrap`ped) and terminates, leaving the rest of the stream unprocessed. -/
theorem C1_amended_malformed_panics (acc : AccountInfo) (slot : Nat)
    (sendOk : Nat → Bool) (rest : List InboundMessage)
    (hown : acc.owner = splTokenId ∨ acc.owner = splToken2022Id)
    (hbad : (unpack_from_slice acc.data).isOk = false) :
    (decodeRun sendOk (⟨some (.account (some acc) slot)⟩ :: rest)).isPanicked
      = true ∧
    (decodeRun sendOk (⟨some (.account (some acc) slot)⟩ :: rest)).outputs
      = [] := by
  have hstep : ∃ s, decodeStep ⟨some (.account (some acc) slot)⟩ =
      .panicked s := by
    rcases hown with h | h
    · cases hu : unpack_from_slice acc.data with
      | panicked =>
        exact ⟨"index out of range", by
          simp [decodeStep, h, pubkeyTryFrom_of_length splTokenId_length,
                splTokenId_ne_system, hu]⟩
      | invalid =>
        exact ⟨"unwrap on Err", by
          simp [decodeStep, h, pubkeyTryFrom_of_length splTokenId_length,
                splTokenId_ne_system, hu]⟩
      | ok st => rw [hu] at hbad; simp [Unpacked.isOk] at hbad
    · cases hu : unpack_from_slice acc.data with
      | panicked =>
        exact ⟨"index out of range", by
          simp [decodeStep, h, pubkeyTryFrom_of_length splToken2022Id_length,
                splToken2022Id_ne_system, splToken2022Id_ne_splTokenId,
                unpack_from_slice_2022, hu]⟩
      | invalid =>
        exact ⟨"unwrap on Err", by
          simp [decodeStep, h, pubkeyTryFrom_of_length splToken2022Id_length,
                splToken2022Id_ne_system, splToken2022Id_ne_splTokenId,
                unpack_from_slice_2022, hu]⟩
      | ok st => rw [hu] at hbad; simp [Unpacked.isOk] at hbad
  obtain ⟨s, hs⟩ := hstep
  constructor
  · simp [decodeRun, decodeRunAux, hs, RunResult.isPanicked]
  · simp [decodeRun, decodeRunAux, hs, RunResult.outputs]

/-- Witness for the amended C1 at the concrete zero-length-buffer message. -/
theorem C1_amended_malformed_panics_witness :
    (decodeRun (fun _ => true) (⟨some (.account (some ⟨List.replicate 32 7,
        splTokenId, 0, []⟩) 9)⟩ :: [pingMsg])).isPanicked = true ∧
    (decodeRun (fun _ => true) (⟨some (.account (some ⟨List.replicate 32 7,
        splTokenId, 0, []⟩) 9)⟩ :: [pingMsg])).outputs = [] :=
  C1_amended_malformed_panics ⟨List.replicate 32 7, splTokenId, 0, []⟩ 9
    (fun _ => true) [pingMsg] (Or.inl rfl) (by decide)

/-! Machinery for run-level claims: splitting a run at a clean prefix. -/

/-- Prepend a list of delivered outputs to a run result. -/
def prependOutputs (us : List BalanceUpdate) (r : RunResult) : RunResult :=
  us.foldr RunResult.consOutput r

lemma consOutput_eq_ended {u : BalanceUpdate} {r : RunResult}
    {outs : List BalanceUpdate} (h : r.consOutput u = .ended outs) :
    ∃ outs2, r = .ended outs2 ∧ outs = u :: outs2 := by
  cases r with
  | ended o =>
    refine ⟨o, rfl, ?_⟩
    simpa [RunResult.consOutput] using h.symm
  | failed o s => simp [RunResult.consOutput] at h
  | panicked o s => simp [RunResult.consOutput] at h

lemma prependOutputs_failed (us vs : List BalanceUpdate) (s : String) :
    prependOutputs us (.failed vs s) = .failed (us ++ vs) s := by
  induction us with
  | nil => rfl
  | cons u us ih =>
    show RunResult.consOutput u (prependOutputs us (.failed vs s)) = _
    rw [ih]
    rfl

/-- A prefix that the decode loop consumes cleanly commutes with appending
further stream traffic: the run on the longer stream is the run on the suffix
(from some push counter), with the outputs of the prefix in front. -/
lemma decodeRunAux_append (sendOk : Nat → Bool) (rest : List InboundMessage) :
    ∀ (pre : List InboundMessage) (k : Nat) (outs : List BalanceUpdate),
      decodeRunAux sendOk pre k = .ended outs →
      ∃ k2, decodeRunAux sendOk (pre ++ rest) k =
        prependOutputs outs (decodeRunAux sendOk rest k2) := by
  intro pre
  induction pre with
  | nil =>
    intro k outs h
    simp only [decodeRunAux, RunResult.ended.injEq] at h
    subst h
    exact ⟨k, by simp [prependOutputs]⟩
  | cons m pre ih =>
    intro k outs h
    rw [List.cons_append]
    cases hs : decodeStep m with
    | cont ou =>
      cases ou with
      | none =>
        simp only [decodeRunAux, hs] at h ⊢
        exact ih k outs h
      | some u =>
        simp only [decodeRunAux, hs] at h ⊢
        by_cases hk : sendOk k = true
        · simp only [hk, if_true] at h ⊢
          obtain ⟨outs2, h2, rfl⟩ := consOutput_eq_ended h
          obtain ⟨k2, hk2⟩ := ih (k + 1) outs2 h2
          exact ⟨k2, by rw [hk2]; rfl⟩
        · simp only [hk, if_false] at h ⊢
          exact ih (k + 1) outs h
    | panicked s =>
      simp only [decodeRunAux, hs] at h
      exact absurd h (by simp)
    | failed s =>
      simp only [decodeRunAux, hs] at h
      exact absurd h (by simp)

/-- C4: a message of a kind other than ping, pong or account update makes the
decode loop fail (`anyhow::bail!`, the `ProtocolViolation` of the spec), the decode
activity terminates there, and no `BalanceUpdate` is produced afterward: the
run on any cleanly consumed prefix followed by such a message delivers only
the outputs of the prefix and ends in the failure, whatever traffic follows. -/
theorem C4_other_protocol_violation (sendOk : Nat → Bool)
    (pre post : List InboundMessage) (outs : List BalanceUpdate)
    (hpre : decodeRun sendOk pre = .ended outs) :
    decodeRun sendOk (pre ++ ⟨some .other⟩ :: post) =
      .failed outs "received unexpected message" := by
  obtain ⟨k2, h2⟩ :=
    decodeRunAux_append sendOk (⟨some .other⟩ :: post) pre 0 outs hpre
  rw [decodeRun, h2]
  have hsuf : decodeRunAux sendOk (⟨some .other⟩ :: post) k2 =
      .failed [] "received unexpected message" := by
    simp [decodeRunAux, decodeStep]
  rw [hsuf, prependOutputs_failed]
  simp

/-- Witness for C4: a ping, then an unexpected message, then a pong. -/
theorem C4_other_protocol_violation_witness :
    decodeRun (fun _ => true) ([pingMsg] ++ ⟨some .other⟩ :: [pongMsg]) =
      .failed [] "received unexpected message" :=
  C4_other_protocol_violation (fun _ => true) [pingMsg] [pongMsg] [] rfl

/-! Machinery for C8: failed output-queue pushes never change how the run
terminates. -/

lemma consOutput_status (u : BalanceUpdate) (r : RunResult) :
    (r.consOutput u).status = r.status := by
  cases r <;> rfl

lemma decodeRunAux_status_ignores_sendOk (f g : Nat → Bool) :
    ∀ (msgs : List InboundMessage) (k1 k2 : Nat),
      (decodeRunAux f msgs k1).status = (decodeRunAux g msgs k2).status := by
  intro msgs
  induction msgs with
  | nil => intro k1 k2; rfl
  | cons m rest ih =>
    intro k1 k2
    cases hs : decodeStep m with
    | cont ou =>
      cases ou with
      | none =>
        simp only [decodeRunAux, hs]
        exact ih k1 k2
      | some u =>
        simp only [decodeRunAux, hs]
        by_cases h1 : f k1 = true <;> by_cases h2 : g k2 = true <;>
          simp only [h1, h2, if_true, if_false, consOutput_status] <;>
          exact ih (k1 + 1) (k2 + 1)
    | panicked s => simp only [decodeRunAux, hs]
    | failed s => simp only [decodeRunAux, hs]

/-- C8: a failed push of a decoded `BalanceUpdate` (receiver dropped) is only
logged: whichever pushes fail, the decode loop consumes exactly the same
messages and terminates with exactly the same status as a run in which every
push succeeds — push failures never end or alter the run. -/
theorem C8_push_failure_only_logged (sendOk : Nat → Bool)
    (msgs : List InboundMessage) :
    (decodeRun sendOk msgs).status = (decodeRun (fun _ => true) msgs).status :=
  decodeRunAux_status_ignores_sendOk sendOk (fun _ => true) msgs 0 0

/-! The outbound trace: C5 and C6. -/

lemma pingLoop_all_isPing : ∀ (n : Nat) (id : Int),
    (pingLoop n id).all (fun m => m.isPing) = true := by
  intro n
  induction n with
  | zero => intro id; rfl
  | succ n ih =>
    intro id
    have hunf : pingLoop (n + 1) id =
        .ping (wrapI32 (id + 1)) :: pingLoop n (wrapI32 (id + 1)) := rfl
    rw [hunf, List.all_cons, ih]
    rfl

lemma pingLoop_countP_isFilter : ∀ (n : Nat) (id : Int),
    (pingLoop n id).countP (fun m => m.isFilter) = 0 := by
  intro n
  induction n with
  | zero => intro id; rfl
  | succ n ih =>
    intro id
    have hunf : pingLoop (n + 1) id =
        .ping (wrapI32 (id + 1)) :: pingLoop n (wrapI32 (id + 1)) := rfl
    rw [hunf, List.countP_cons, ih]
    rfl

/-- C5: for every watch set, the outbound trace of a successful subscription
contains exactly one filter message; it is the very first outbound message,
it carries exactly the address strings of the watch set (with the Processed
commitment), and every later outbound message is a liveness ping — so the
filter precedes every ping. -/
theorem C5_filter_once_before_pings (toStr : Bytes → String)
    (accounts : List Bytes) (n : Nat) :
    (outboundTrace toStr accounts n).countP (fun m => m.isFilter) = 1 ∧
    (outboundTrace toStr accounts n).head? =
      some (.filter (accounts.map toStr) (some commitmentProcessed)) ∧
    (outboundTrace toStr accounts n).tail.all (fun m => m.isPing) = true := by
  refine ⟨?_, rfl, ?_⟩
  · show List.countP _ (filterRequest toStr accounts :: pingLoop n 0) = 1
    rw [List.countP_cons, pingLoop_countP_isFilter]
    rfl
  · show (pingLoop n 0).all _ = true
    exact pingLoop_all_isPing n 0

lemma wrapI32_eq_self {x : Int} (h0 : 0 ≤ x) (h1 : x < 2 ^ 31) :
    wrapI32 x = x := by
  unfold wrapI32
  omega

/-- Ids of a ping loop started from counter `s`: while within i32 range the
i32 wrap is the identity and the loop counts `s+1, s+2, ...`. -/
lemma pingLoop_from (n : Nat) : ∀ (s : Nat), s + n < 2 ^ 31 →
    pingLoop n (s : Int) =
      (List.range n).map
        (fun k : Nat => OutboundMsg.ping ((s : Int) + (k : Int) + 1)) := by
  induction n with
  | zero => intro s h; rfl
  | succ n ih =>
    intro s h
    have hs1 : (s + 1 : Nat) < 2 ^ 31 := by omega
    have hw : wrapI32 ((s : Int) + 1) = (s : Int) + 1 :=
      wrapI32_eq_self (by positivity) (by exact_mod_cast hs1)
    have hunf : pingLoop (n + 1) (s : Int) =
        .ping (wrapI32 ((s : Int) + 1)) ::
          pingLoop n (wrapI32 ((s : Int) + 1)) := rfl
    rw [hunf, hw]
    have hcast : (s : Int) + 1 = ((s + 1 : Nat) : Int) := by push_cast; ring
    rw [hcast, ih (s + 1) (by omega)]
    have hfun : (fun k : Nat =>
        OutboundMsg.ping (((s + 1 : Nat) : Int) + (k : Int) + 1)) =
        ((fun k : Nat => OutboundMsg.ping ((s : Int) + (k : Int) + 1)) ∘
          Nat.succ) := by
      funext k
      simp only [Function.comp]
      have harith : ((s + 1 : Nat) : Int) + (k : Int) + 1 =
          (s : Int) + ((Nat.succ k : Nat) : Int) + 1 := by push_cast; ring
      rw [harith]
    have hhead :
        OutboundMsg.ping ((s : Int) + ((0 : Nat) : Int) + 1) =
        OutboundMsg.ping ((s + 1 : Nat) : Int) := by
      have harith : (s : Int) + ((0 : Nat) : Int) + 1 =
          ((s + 1 : Nat) : Int) := by push_cast; ring
      rw [harith]
    rw [List.range_succ_eq_map, List.map_cons, List.map_map, ← hfun, hhead]

/-- C6: within one subscription, the ids of the liveness pings sent over the
first `n` ticks are exactly `1, 2, …, n` in order — the counter starts at 1,
increases by exactly 1 per tick, with no gaps or repeats; the counter is the
explicitly threaded local state of this loop instance. (Bounded by the i32
range of the wire field, which wraps only after 2^31 − 1 ticks.) -/
theorem C6_ping_ids_sequential (n : Nat) (h : n < 2 ^ 31) :
    pingLoop n 0 =
      (List.range n).map (fun k : Nat => OutboundMsg.ping ((k : Int) + 1)) := by
  have h0 := pingLoop_from n 0 (by omega)
  rw [Nat.cast_zero] at h0
  rw [h0]
  have hfun : (fun k : Nat => OutboundMsg.ping ((0 : Int) + (k : Int) + 1)) =
      (fun k : Nat => OutboundMsg.ping ((k : Int) + 1)) := by
    funext k
    congr 1
    ring
  rw [hfun]

/-- Witness for C6 at four ticks. -/
theorem C6_ping_ids_sequential_witness :
    pingLoop 4 0 =
      (List.range 4).map (fun k : Nat => OutboundMsg.ping ((k : Int) + 1)) :=
  C6_ping_ids_sequential 4 (by norm_num)

end Solana
